import Mathlib

/-
Verification of the content hub navigation and welcome animation controller
(src/script.js) against its natural language specification.

The script is shallowly embedded: DOM state is made explicit, every event
handler becomes a state transformer, and timers are modelled through an
explicit millisecond clock carried in the state.  Definitions keep the
names of the source functions where possible, and comments cite the source
lines they translate.
-/

/- ===================================================================
   Part 1: the welcome message text sequencer
   (prepareWelcomeAnimation / processNode, src/script.js lines 34-83)
   =================================================================== -/

/-- ECMAScript whitespace as removed by the trim method used at line 44:
WhiteSpace (TAB, VT, FF, SP, NBSP, ZWNBSP and the Unicode Zs spaces) plus
LineTerminator (LF, CR, LS, PS). -/
def jsWhitespace (c : Char) : Bool :=
  c == '\t' || c == '\n' || c == '\x0b' || c == '\x0c' || c == '\r' || c == ' ' ||
  c == '\u00A0' || c == '\u1680' || (decide ('\u2000' ≤ c) && decide (c ≤ '\u200A')) ||
  c == '\u2028' || c == '\u2029' || c == '\u202F' || c == '\u205F' || c == '\u3000' || c == '\uFEFF'

/-- The four characters the character loop at lines 47-52 treats as
whitespace: space is preserved verbatim, LF, CR and TAB are dropped. -/
def loopWhitespace (c : Char) : Bool :=
  c == ' ' || c == '\n' || c == '\r' || c == '\t'

/-- Lowercasing of an ASCII letter, as tagName.toLowerCase does on the
ASCII tag names that occur in HTML documents (line 64). -/
def lowerChar (c : Char) : Char :=
  if decide ('A' ≤ c) && decide (c ≤ 'Z') then Char.ofNat (c.toNat + 32) else c

/-- Case insensitive string comparison, used for the tag name test
tagName.toLowerCase() !== br at line 64 (tagName is uppercase in HTML). -/
def lowerEq (s t : String) : Bool :=
  s.toList.map lowerChar == t.toList.map lowerChar

/-- A node of the welcome message DOM subtree.

  * text s: a text node (nodeType 3) with textContent s.
  * unit d c: a character span produced by lines 54-58.  It carries the
    inline style attribute animation-delay (so hasAttribute style is true
    on it) and the single character c.  The delay is recorded in
    milliseconds: the source computes (charIndex * 0.03).toFixed(2)
    seconds, which for every message size that fits in memory is exactly
    the decimal 3 * charIndex / 100, i.e. 30 * charIndex milliseconds.
  * elem tag hasStyle children: any other element node (nodeType 1), with
    its tag name, whether it has an inline style attribute, and its child
    nodes in document order.

Comment nodes and other node types are not part of a welcome message and
are omitted; the traversal at lines 63-67 ignores them anyway. -/
inductive DomNode where
  | text (s : String)
  | unit (delayMillis : Nat) (c : Char)
  | elem (tag : String) (hasStyle : Bool) (children : List DomNode)

/-- The character loop of lines 46-59: builds the document fragment that
replaces one text node, threading the charIndex counter.  A space becomes
a fresh text node (lines 48-51), LF, CR and TAB are skipped (line 52), and
every other character becomes one animated span whose delay is
30 * charIndex milliseconds, with charIndex incremented (lines 54-58). -/
def processChars (k : Nat) : List Char → (List DomNode × Nat)
  | [] => ([], k)
  | c :: cs =>
    if c == ' ' then
      let r := processChars k cs
      (DomNode.text " " :: r.1, r.2)
    else if c == '\n' || c == '\r' || c == '\t' then
      processChars k cs
    else
      let r := processChars (k + 1) cs
      (DomNode.unit (30 * k) c :: r.1, r.2)

mutual

/-- processNode of lines 40-68, as a function from the charIndex counter
and a node to the list of nodes that replaces the node in its parent,
together with the updated counter.

  * Text nodes whose content trims to nothing are returned unchanged
    (line 44); other text nodes are replaced by the fragment built by
    processChars (lines 46-60).
  * Element nodes are recursed into (line 66) unless the tag is br or the
    node carries an inline style attribute (lines 63-65); skipped nodes
    are returned unchanged.  The spans created by this very traversal
    carry a style attribute, hence are skipped. -/
def processNode (k : Nat) : DomNode → (List DomNode × Nat)
  | .text s => if s.toList.all jsWhitespace then ([.text s], k) else processChars k s.toList
  | .unit d c => ([.unit d c], k)
  | .elem tag sty cs =>
    if lowerEq tag "br" || sty then ([.elem tag sty cs], k)
    else
      let r := processList k cs
      ([.elem tag sty r.1], r.2)

/-- The snapshot iteration Array.from(node.childNodes).forEach(processNode)
of line 66: each child is processed in order, its replacement spliced in
place, the charIndex counter threaded left to right. -/
def processList (k : Nat) : List DomNode → (List DomNode × Nat)
  | [] => ([], k)
  | n :: ns =>
    let r := processNode k n
    let r2 := processList r.2 ns
    (r.1 ++ r2.1, r2.2)

end

/-- prepareWelcomeAnimation (lines 34-83) runs processNode once on the
welcome message element with charIndex starting at 0.  Only the sequencing
result (transformed tree and final unit count) is modelled here; the dock
jitter timer it then schedules touches no state the claims mention. -/
def prepareWelcomeAnimation (messageEl : DomNode) : List DomNode × Nat :=
  processNode 0 messageEl

mutual

/-- The animated units appearing in a node, in document order. -/
def unitsOfNode : DomNode → List (Nat × Char)
  | .text _ => []
  | .unit d c => [(d, c)]
  | .elem _ _ cs => unitsOfList cs

/-- The animated units appearing in a list of nodes, in document order. -/
def unitsOfList : List DomNode → List (Nat × Char)
  | [] => []
  | n :: ns => unitsOfNode n ++ unitsOfList ns

end

mutual

/-- Every character appearing in a node, in document order: text node
content and the characters carried by animated units. -/
def charsOfNode : DomNode → List Char
  | .text s => s.toList
  | .unit _ c => [c]
  | .elem _ _ cs => charsOfList cs

/-- Every character appearing in a list of nodes, in document order. -/
def charsOfList : List DomNode → List Char
  | [] => []
  | n :: ns => charsOfNode n ++ charsOfList ns

end

mutual

/-- A pristine welcome message, as delivered by the page author before the
sequencer ever ran: it contains no previously produced animated units, no
element carries an inline style attribute, and the only whitespace
characters occurring in its text are space, LF, CR and TAB. -/
def pristineNode : DomNode → Bool
  | .text s => s.toList.all (fun c => !jsWhitespace c || loopWhitespace c)
  | .unit _ _ => false
  | .elem _ sty cs => !sty && pristineList cs

/-- Pristine, for a list of nodes. -/
def pristineList : List DomNode → Bool
  | [] => true
  | n :: ns => pristineNode n && pristineList ns

end

mutual

/-- The content characters of a pristine message that the sequencer is
meant to animate: the non whitespace characters of its text nodes, in
original order, not descending into line break elements. -/
def animCharsNode : DomNode → List Char
  | .text s => s.toList.filter (fun c => !loopWhitespace c)
  | .unit _ _ => []
  | .elem tag _ cs => if lowerEq tag "br" then [] else animCharsList cs

/-- Content characters of a list of nodes, in original order. -/
def animCharsList : List DomNode → List Char
  | [] => []
  | n :: ns => animCharsNode n ++ animCharsList ns

end

/-- The expected unit sequence for a character list when the counter
starts at k: the j-th unit (0 based) carries delay 30 * (k + j). -/
def unitsFrom (k : Nat) : List Char → List (Nat × Char)
  | [] => []
  | c :: cs => (30 * k, c) :: unitsFrom (k + 1) cs

/- ===================================================================
   Part 2: navigation state and event handlers
   (src/script.js lines 12-13, 89-153, 158-169, 174-204)
   =================================================================== -/

/-- One navigation button: its data-url attribute (none when the attribute
is missing), whether it has the active class, and its aria-current value.
Index and url never change; only the active designation does. -/
structure NavButton where
  url : Option String
  active : Bool
  ariaCurrent : String
deriving DecidableEq, Repr

/-- The observable page state the script manipulates: the buttons in
document order, the currentUrl variable (line 13, initially empty), the
loading class on the frame container, the active class on the welcome
screen, the frame src, a millisecond clock, and the removal deadlines of
the error overlays currently appended to the frame container. -/
structure NavState where
  buttons : List NavButton
  currentUrl : String
  loading : Bool
  welcomeActive : Bool
  frameSrc : String
  now : Nat
  overlays : List Nat
deriving DecidableEq, Repr

/-- The page state at startup: currentUrl is empty (line 13), no load is
in flight, the welcome screen is shown, and no overlay exists.  Which
buttons exist, their urls, and their initial classes come from the static
page markup, so they are parameters. -/
def initialState (bs : List NavButton) : NavState :=
  { buttons := bs, currentUrl := "", loading := false, welcomeActive := true,
    frameSrc := "", now := 0, overlays := [] }

/-- The forEach at lines 114-117: every button loses the active class and
gets aria-current false. -/
def clearActive (bs : List NavButton) : List NavButton :=
  bs.map (fun b => { b with active := false, ariaCurrent := "false" })

/-- Lines 119-120 applied to the button at position i: it gains the active
class and aria-current page. -/
def markActive : Nat → List NavButton → List NavButton
  | _, [] => []
  | 0, b :: bs => { b with active := true, ariaCurrent := "page" } :: bs
  | i + 1, b :: bs => b :: markActive i bs

/-- updateActiveButton (lines 113-121) for the button at index i: clear
the active designation everywhere, then set it on that button. -/
def updateActiveButton (s : NavState) (i : Nat) : NavState :=
  { s with buttons := markActive i (clearActive s.buttons) }

/-- loadContent (lines 128-146) for a url and the index of the clicked
button: hide the welcome screen (lines 130-132), clear the loading class
for the fast tabs 0 and 1 and set it for every other index (lines
134-142), then record the url and redirect the frame (lines 144-145).
The haptic pulse of lines 104-106 touches no modelled state. -/
def loadContent (s : NavState) (url : String) (i : Nat) : NavState :=
  let s1 := { s with welcomeActive := false }
  let isFastTab := i == 0 || i == 1
  let s2 := { s1 with loading := if isFastTab then false else true }
  { s2 with currentUrl := url, frameSrc := url }

/-- handleNavClick (lines 89-107) for a click on the button at index i:
read its data-url; when the attribute is missing or empty, or equal to
currentUrl, return without doing anything (lines 93-95); otherwise update
the active designation and load the url (lines 98-101). -/
def handleNavClick (s : NavState) (i : Nat) : NavState :=
  match s.buttons[i]? with
  | none => s
  | some b =>
    match b.url with
    | none => s
    | some u =>
      if u = "" then s
      else if u = s.currentUrl then s
      else loadContent (updateActiveButton s i) u i

/-- handleFrameLoad (lines 151-153): the frame load event clears the
loading class, unconditionally. -/
def handleFrameLoad (s : NavState) : NavState :=
  { s with loading := false }

/-- The frame error listener of lines 175-181 together with
showErrorMessage (lines 187-204): clear the loading class, append one
error overlay to the frame container, and schedule its removal 3000
milliseconds from now (lines 201-203). -/
def handleFrameError (s : NavState) : NavState :=
  { s with loading := false, overlays := s.overlays ++ [s.now + 3000] }

/-- The passage of d milliseconds: every overlay whose removal timer has
come due disappears (the setTimeout callback at lines 201-203). -/
def elapse (s : NavState) (d : Nat) : NavState :=
  { s with now := s.now + d, overlays := s.overlays.filter (fun t => decide (s.now + d < t)) }

/-- The keydown listener of lines 158-169: with the Alt modifier held and
a digit key between 1 and 5, the button at the zero based index exists
check of line 164 passes exactly when the index is in range, and the click
of line 165 reaches handleNavClick.  Multi character key values such as
Enter never satisfy the digit range test. -/
def handleKeydown (s : NavState) (altKey : Bool) (key : Char) : NavState :=
  if altKey && (decide ('1' ≤ key) && decide (key ≤ '5')) then
    if key.toNat - '1'.toNat < s.buttons.length then
      handleNavClick s (key.toNat - '1'.toNat)
    else s
  else s

/-- The events the page can deliver to the script: a pointer click on the
button at index i, a keydown, the frame load and error signals, and the
passage of time. -/
inductive NavEvent where
  | click (i : Nat)
  | keydown (alt : Bool) (key : Char)
  | frameLoad
  | frameError
  | elapse (d : Nat)
deriving DecidableEq, Repr

/-- Dispatch of one event to its handler. -/
def step (s : NavState) : NavEvent → NavState
  | .click i => handleNavClick s i
  | .keydown a k => handleKeydown s a k
  | .frameLoad => handleFrameLoad s
  | .frameError => handleFrameError s
  | .elapse d => elapse s d

/-- Run a sequence of events. -/
def run (s : NavState) : List NavEvent → NavState
  | [] => s
  | e :: es => run (step s e) es

/-- The states reached after each event of a sequence. -/
def runStates (s : NavState) : List NavEvent → List NavState
  | [] => []
  | e :: es => step s e :: runStates (step s e) es

/-- How many buttons carry the active designation. -/
def countActive (s : NavState) : Nat :=
  s.buttons.countP (fun b => b.active)

/-- A click on index i actually navigates in state s: the button exists
and its url is present, non empty, and differs from currentUrl, so the
guard at lines 93-95 falls through. -/
def effectiveClick (s : NavState) (i : Nat) : Bool :=
  match s.buttons[i]? with
  | none => false
  | some b =>
    match b.url with
    | none => false
    | some u => !(u == "") && !(u == s.currentUrl)

/-- The event is an activation that actually navigates in state s. -/
def activates (s : NavState) : NavEvent → Bool
  | .click i => effectiveClick s i
  | .keydown a k =>
    a && (decide ('1' ≤ k) && decide (k ≤ '5')) &&
      decide (k.toNat - '1'.toNat < s.buttons.length) &&
      effectiveClick s (k.toNat - '1'.toNat)
  | _ => false

/-- Some event of the sequence actually navigates, from the state current
when it fires. -/
def someActivation (s : NavState) : List NavEvent → Bool
  | [] => false
  | e :: es => activates s e || someActivation (step s e) es

/-- The events that can turn the loading indicator off: the frame load and
error signals, and an effective activation of a fast tab (index 0 or 1). -/
def isClearing (s : NavState) : NavEvent → Bool
  | .frameLoad => true
  | .frameError => true
  | .click i => (i == 0 || i == 1) && effectiveClick s i
  | .keydown a k =>
    a && (decide ('1' ≤ k) && decide (k ≤ '5')) &&
      decide (k.toNat - '1'.toNat < s.buttons.length) &&
      (k.toNat - '1'.toNat == 0 || k.toNat - '1'.toNat == 1) &&
      effectiveClick s (k.toNat - '1'.toNat)
  | .elapse _ => false

/-- No event of the sequence, from the state current when it fires, is one
of the clearing events. -/
def noClearing (s : NavState) : List NavEvent → Bool
  | [] => true
  | e :: es => !isClearing s e && noClearing (step s e) es

/-- The observable states passed through while loadContent runs, one per
mutating statement: welcome screen hidden (lines 130-132), loading class
written (lines 138-142), currentUrl recorded (line 144), frame redirected
(line 145). -/
def loadContentTrace (s : NavState) (url : String) (i : Nat) : List NavState :=
  let s1 := { s with welcomeActive := false }
  let isFastTab := i == 0 || i == 1
  let s2 := { s1 with loading := if isFastTab then false else true }
  let s3 := { s2 with currentUrl := url }
  let s4 := { s3 with frameSrc := url }
  [s1, s2, s3, s4]

/-- The observable states passed through while handleNavClick runs: none
on the early return of lines 93-95; otherwise the state after the active
classes are cleared (lines 114-117, compressing the per button loop into
its final state, through which the active count only decreases), the state
after the clicked button is marked (lines 119-120), then the loadContent
states. -/
def clickTrace (s : NavState) (i : Nat) : List NavState :=
  match s.buttons[i]? with
  | none => []
  | some b =>
    match b.url with
    | none => []
    | some u =>
      if u = "" then []
      else if u = s.currentUrl then []
      else
        let cleared := { s with buttons := clearActive s.buttons }
        let marked := updateActiveButton s i
        cleared :: marked :: loadContentTrace marked u i

/- ===================================================================
   Part 3: element absence (the null guards, or their absence)
   =================================================================== -/

/-- Which of the expected page elements the document actually contains
(lines 6-10 look them up once at startup). -/
structure PageConfig where
  hasContentFrame : Bool
  hasFrameContainer : Bool
  hasWelcomeScreen : Bool
  hasWelcomeMessage : Bool
  hasBottomNav : Bool
deriving DecidableEq, Repr

/-- The page with every expected element present. -/
def fullPage : PageConfig :=
  { hasContentFrame := true, hasFrameContainer := true, hasWelcomeScreen := true,
    hasWelcomeMessage := true, hasBottomNav := true }

/-- init (lines 18-29) as a fallible computation: attaching the click
handlers (lines 20-22) cannot throw even for an empty button list, but
line 25 dereferences contentFrame with no null guard, so a missing frame
element throws a TypeError; prepareWelcomeAnimation guards both elements
it uses (lines 36 and 73) and never throws. -/
def initE (cfg : PageConfig) : Except String Unit :=
  if cfg.hasContentFrame then Except.ok ()
  else Except.error "TypeError: contentFrame is null"

/-- prepareWelcomeAnimation under element absence: a missing welcome
message element returns at line 36 before any work; a missing bottom nav
merely skips the jitter timer (line 73).  No absence throws. -/
def prepareWelcomeAnimationE (cfg : PageConfig) (messageEl : DomNode) :
    Except String (Option (List DomNode × Nat)) :=
  Except.ok (if cfg.hasWelcomeMessage then some (prepareWelcomeAnimation messageEl) else none)

/-- loadContent under element absence: the welcome screen access is
guarded (line 130), but lines 139 and 141 dereference frameContainer and
line 145 dereferences contentFrame with no guard, so their absence throws
(after the earlier mutations already happened). -/
def loadContentE (cfg : PageConfig) (s : NavState) (url : String) (i : Nat) :
    Except String NavState :=
  let s1 := if cfg.hasWelcomeScreen then { s with welcomeActive := false } else s
  if cfg.hasFrameContainer then
    let isFastTab := i == 0 || i == 1
    let s2 := { s1 with loading := if isFastTab then false else true }
    let s3 := { s2 with currentUrl := url }
    if cfg.hasContentFrame then Except.ok { s3 with frameSrc := url }
    else Except.error "TypeError: contentFrame is null"
  else Except.error "TypeError: frameContainer is null"

/-- handleNavClick under element absence: the early returns of lines 93-95
never touch the optional elements; the effective path inherits the
loadContent failures. -/
def handleNavClickE (cfg : PageConfig) (s : NavState) (i : Nat) : Except String NavState :=
  match s.buttons[i]? with
  | none => Except.ok s
  | some b =>
    match b.url with
    | none => Except.ok s
    | some u =>
      if u = "" then Except.ok s
      else if u = s.currentUrl then Except.ok s
      else loadContentE cfg (updateActiveButton s i) u i

/-- handleFrameLoad under element absence: line 152 dereferences
frameContainer with no guard. -/
def handleFrameLoadE (cfg : PageConfig) (s : NavState) : Except String NavState :=
  if cfg.hasFrameContainer then Except.ok { s with loading := false }
  else Except.error "TypeError: frameContainer is null"

/-- The frame error listener under element absence: line 176 dereferences
frameContainer with no guard (and line 198 appends the overlay to it). -/
def handleFrameErrorE (cfg : PageConfig) (s : NavState) : Except String NavState :=
  if cfg.hasFrameContainer then Except.ok (handleFrameError s)
  else Except.error "TypeError: frameContainer is null"

/-- setupErrorHandling (lines 174-182): line 175 dereferences contentFrame
with no guard. -/
def setupErrorHandlingE (cfg : PageConfig) : Except String Unit :=
  if cfg.hasContentFrame then Except.ok ()
  else Except.error "TypeError: contentFrame is null"

/- ===================================================================
   Part 4: lemmas shared by the navigation theorems
   =================================================================== -/

theorem markActive_map_url (j : Nat) (bs : List NavButton) :
    (markActive j bs).map NavButton.url = bs.map NavButton.url := by
  induction bs generalizing j with
  | nil => cases j <;> rfl
  | cons b bs ih =>
    cases j with
    | zero => simp [markActive]
    | succ j => simp [markActive, ih]

theorem clearActive_map_url (bs : List NavButton) :
    (clearActive bs).map NavButton.url = bs.map NavButton.url := by
  induction bs with
  | nil => rfl
  | cons b bs ih => simp [clearActive] at ih ⊢

theorem updateActiveButton_map_url (s : NavState) (i : Nat) :
    (updateActiveButton s i).buttons.map NavButton.url = s.buttons.map NavButton.url := by
  simp [updateActiveButton, markActive_map_url, clearActive_map_url]

theorem loadContent_buttons (s : NavState) (u : String) (i : Nat) :
    (loadContent s u i).buttons = s.buttons := rfl

theorem loadContent_currentUrl (s : NavState) (u : String) (i : Nat) :
    (loadContent s u i).currentUrl = u := rfl

/-- Example buttons for the concrete scenarios of the specification. -/
def homeButton : NavButton := { url := some "/home.html", active := false, ariaCurrent := "false" }

def gamesButton : NavButton := { url := some "/games.html", active := false, ariaCurrent := "false" }

def newsButton : NavButton := { url := some "/news.html", active := false, ariaCurrent := "false" }

/-- A button whose data-url attribute is present but empty. -/
def blankButton : NavButton := { url := some "", active := false, ariaCurrent := "false" }

/-- A three button page at startup. -/
def demoPage : NavState := initialState [homeButton, gamesButton, newsButton]

/-- The same page while a load is still in flight. -/
def pendingPage : NavState := { demoPage with loading := true }

/- ===================================================================
   Part 5: claims C2, C3, C10
   =================================================================== -/

/-- C2 (confirmed): activating a button whose target url is missing,
empty, or equal to the current url is a no-op: the whole state, hence in
particular currentUrl, every active flag, the loading indicator and the
frame src, is unchanged; and activating any button a second time changes
nothing, since an effective first activation makes its url current. -/
theorem handleNavClick_noop_and_idempotent (s : NavState) (i : Nat) :
    (∀ b, s.buttons[i]? = some b →
        b.url = none ∨ b.url = some "" ∨ b.url = some s.currentUrl →
        handleNavClick s i = s) ∧
    handleNavClick (handleNavClick s i) i = handleNavClick s i := by
  constructor
  · intro b hb hcase
    rcases hcase with h | h | h
    · simp [handleNavClick, hb, h]
    · simp [handleNavClick, hb, h]
    · by_cases h0 : s.currentUrl = ""
      · simp [handleNavClick, hb, h, h0]
      · simp [handleNavClick, hb, h, h0]
  · cases hb : s.buttons[i]? with
    | none => simp [handleNavClick, hb]
    | some b =>
      cases hu : b.url with
      | none => simp [handleNavClick, hb, hu]
      | some u =>
        by_cases h1 : u = ""
        · simp [handleNavClick, hb, hu, h1]
        · by_cases h2 : u = s.currentUrl
          · simp [handleNavClick, hb, hu, h1, h2]
          · have hstep : handleNavClick s i = loadContent (updateActiveButton s i) u i := by
              simp [handleNavClick, hb, hu, h1, h2]
            rw [hstep]
            have hmap : ((loadContent (updateActiveButton s i) u i).buttons.map
                NavButton.url)[i]? = some (some u) := by
              rw [loadContent_buttons, updateActiveButton_map_url, List.getElem?_map, hb]
              simp [hu]
            rw [List.getElem?_map] at hmap
            cases hb2 : (loadContent (updateActiveButton s i) u i).buttons[i]? with
            | none => rw [hb2] at hmap; simp at hmap
            | some b2 =>
              rw [hb2] at hmap
              have hu2 : b2.url = some u := by simpa using hmap
              simp [handleNavClick, hb2, hu2, h1, loadContent_currentUrl]

/-- C2 witness: clicking the button with an empty url on a fresh page
changes nothing. -/
theorem handleNavClick_noop_and_idempotent_witness :
    handleNavClick (initialState [blankButton]) 0 = initialState [blankButton] :=
  (handleNavClick_noop_and_idempotent (initialState [blankButton]) 0).1 blankButton rfl
    (Or.inr (Or.inl rfl))

/-- C3 (confirmed): activating a button of index 0 or 1 never makes the
loading indicator true: at every observable point during the handling, and
in the resulting state, the indicator is true only if it already was true
before the activation. -/
theorem fast_tab_never_sets_loading (s : NavState) (i : Nat) (h : i = 0 ∨ i = 1) :
    (∀ t ∈ clickTrace s i, t.loading = true → s.loading = true) ∧
    ((handleNavClick s i).loading = true → s.loading = true) := by
  have hfast : (i == 0 || i == 1) = true := by
    rcases h with h | h <;> subst h <;> rfl
  cases hb : s.buttons[i]? with
  | none => simp [clickTrace, handleNavClick, hb]
  | some b =>
    cases hu : b.url with
    | none => simp [clickTrace, handleNavClick, hb, hu]
    | some u =>
      by_cases h1 : u = ""
      · simp [clickTrace, handleNavClick, hb, hu, h1]
      · by_cases h2 : u = s.currentUrl
        · simp [clickTrace, handleNavClick, hb, hu, h1, h2]
        · constructor
          · intro t ht
            simp [clickTrace, hb, hu, h1, h2, loadContentTrace, hfast] at ht
            rcases ht with h3 | h3 | h3 | h3 | h3 | h3 <;> subst h3 <;>
              simp [updateActiveButton, loadContent]
          · intro hl
            simp [handleNavClick, hb, hu, h1, h2, loadContent, hfast] at hl

/-- C3 witness: the spec scenario of clicking button 0 with url
/home.html: the indicator, false before, cannot have become true. -/
theorem fast_tab_never_sets_loading_witness :
    ((0 : Nat) = 0 ∨ (0 : Nat) = 1) ∧
    ((handleNavClick demoPage 0).loading = true → demoPage.loading = true) :=
  ⟨Or.inl rfl, (fast_tab_never_sets_loading demoPage 0 (Or.inl rfl)).2⟩

/-- C10 (confirmed): activating a fast tab (index 0 or 1) with a fresh non
empty url while the loading indicator is currently true clears the
indicator at once, with no completion or error signal involved. -/
theorem fast_click_clears_pending_loading (s : NavState) (i : Nat) (b : NavButton) (u : String)
    (hi : i = 0 ∨ i = 1) (_hl : s.loading = true) (hb : s.buttons[i]? = some b)
    (hu : b.url = some u) (hne : u ≠ "") (hcur : u ≠ s.currentUrl) :
    (handleNavClick s i).loading = false := by
  have hfast : (i == 0 || i == 1) = true := by
    rcases hi with h | h <;> subst h <;> rfl
  simp [handleNavClick, hb, hu, hne, hcur, loadContent, hfast]

/-- C10 witness: on the demo page with a load in flight, clicking button 0
clears the indicator immediately. -/
theorem fast_click_clears_pending_loading_witness :
    pendingPage.loading = true ∧ (handleNavClick pendingPage 0).loading = false :=
  ⟨rfl, fast_click_clears_pending_loading pendingPage 0 homeButton "/home.html" (Or.inl rfl)
    rfl rfl rfl (by decide) (by decide)⟩

/- ===================================================================
   Part 6: claims C4 and C9
   =================================================================== -/

/-- The trace of observable states agrees with the handler: its last state
is the result of handleNavClick (and an empty trace means no mutation). -/
theorem clickTrace_consistent (s : NavState) (i : Nat) :
    (clickTrace s i).getLastD s = handleNavClick s i := by
  cases hb : s.buttons[i]? with
  | none => simp [clickTrace, handleNavClick, hb]
  | some b =>
    cases hu : b.url with
    | none => simp [clickTrace, handleNavClick, hb, hu]
    | some u =>
      by_cases h1 : u = ""
      · simp [clickTrace, handleNavClick, hb, hu, h1]
      · by_cases h2 : u = s.currentUrl
        · simp [clickTrace, handleNavClick, hb, hu, h1, h2]
        · simp [clickTrace, handleNavClick, hb, hu, h1, h2, loadContentTrace, loadContent]

/-- A click that the guard lets through and that is not a fast tab leaves
the loading indicator on when it was on (it in fact turns it on). -/
theorem handleNavClick_loading_of_not_clearing (s : NavState) (i : Nat)
    (hl : s.loading = true) (hc : ((i == 0 || i == 1) && effectiveClick s i) = false) :
    (handleNavClick s i).loading = true := by
  cases hb : s.buttons[i]? with
  | none => simpa [handleNavClick, hb] using hl
  | some b =>
    cases hu : b.url with
    | none => simpa [handleNavClick, hb, hu] using hl
    | some u =>
      by_cases h1 : u = ""
      · simpa [handleNavClick, hb, hu, h1] using hl
      · by_cases h2 : u = s.currentUrl
        · simpa [handleNavClick, hb, hu, h1, h2] using hl
        · have heff : effectiveClick s i = true := by
            simp [effectiveClick, hb, hu, h1, h2]
          rw [heff] at hc
          simp at hc
          simp [handleNavClick, hb, hu, h1, h2, loadContent, hc]

/-- One event that is not a clearing event leaves a lit loading indicator
lit. -/
theorem step_loading_of_not_clearing (s : NavState) (e : NavEvent)
    (hl : s.loading = true) (hc : isClearing s e = false) : (step s e).loading = true := by
  cases e with
  | click i => exact handleNavClick_loading_of_not_clearing s i hl (by simpa [isClearing] using hc)
  | keydown a k =>
    show (handleKeydown s a k).loading = true
    unfold handleKeydown
    split
    next hcond =>
      split
      next hlen =>
        by_cases h2 : ((k.toNat - '1'.toNat == 0 || k.toNat - '1'.toNat == 1) &&
            effectiveClick s (k.toNat - '1'.toNat)) = true
        · exfalso
          simp [isClearing, hcond, hlen] at hc
          simp only [Bool.and_eq_true, Bool.or_eq_true, beq_iff_eq] at h2
          exact absurd (hc hlen h2.1) (by simp only [Bool.not_eq_false]; exact h2.2)
        · exact handleNavClick_loading_of_not_clearing s _ hl (by simpa using h2)
      next hlen => exact hl
    next hcond => exact hl
  | frameLoad => simp [isClearing] at hc
  | frameError => simp [isClearing] at hc
  | elapse d => simpa [step, elapse] using hl

/-- As long as no clearing event fires, a lit loading indicator stays
lit across any event sequence. -/
theorem run_loading_of_noClearing (s : NavState) (es : List NavEvent)
    (hl : s.loading = true) (hnc : noClearing s es = true) : (run s es).loading = true := by
  induction es generalizing s with
  | nil => exact hl
  | cons e es ih =>
    simp [noClearing] at hnc
    exact ih (step s e) (step_loading_of_not_clearing s e hl hnc.1) hnc.2

/-- C4 (confirmed): an effective activation of a button of index 2 or more
turns the loading indicator on at once; the indicator then stays on under
every event sequence free of clearing events (frame load or error signal,
or an effective fast tab activation); the frame load signal turns it off;
and the completion handler is unconditional and idempotent, clearing the
indicator even when it was never set. -/
theorem slow_tab_loading_lifecycle (s : NavState) (i : Nat) (b : NavButton) (u : String)
    (es : List NavEvent) :
    (2 ≤ i → s.buttons[i]? = some b → b.url = some u → u ≠ "" → u ≠ s.currentUrl →
        (handleNavClick s i).loading = true) ∧
    (s.loading = true → noClearing s es = true → (run s es).loading = true) ∧
    (handleFrameLoad s).loading = false ∧
    handleFrameLoad (handleFrameLoad s) = handleFrameLoad s := by
  refine ⟨?_, ?_, rfl, rfl⟩
  · intro hi hb hu h1 h2
    obtain ⟨j, rfl⟩ : ∃ j, i = j + 2 := ⟨i - 2, by omega⟩
    simp [handleNavClick, hb, hu, h1, h2, loadContent]
  · exact fun hl hnc => run_loading_of_noClearing s es hl hnc

/-- C4 witness: the spec scenario of clicking button 2 with url
/news.html while idle: the indicator turns on, stays on while time passes,
and the completion signal turns it off. -/
theorem slow_tab_loading_lifecycle_witness :
    (2 : Nat) ≤ 2 ∧ (handleNavClick demoPage 2).loading = true ∧
    (handleFrameLoad (handleNavClick demoPage 2)).loading = false :=
  ⟨by decide,
   (slow_tab_loading_lifecycle demoPage 2 newsButton "/news.html" []).1 (by decide) rfl rfl
     (by decide) (by decide),
   (slow_tab_loading_lifecycle (handleNavClick demoPage 2) 2 newsButton "/news.html" []).2.2.1⟩

/-- C9 (confirmed): the frame error signal clears the loading indicator
and appends exactly one overlay, whose removal deadline is 3000 ms from
now: the overlay is still present after any strictly shorter wait, and
gone, with no interaction involved, once 3000 ms have passed. -/
theorem frame_error_overlay_lifecycle (s : NavState) (d : Nat) :
    (handleFrameError s).loading = false ∧
    (handleFrameError s).overlays = s.overlays ++ [s.now + 3000] ∧
    (d < 3000 → (s.now + 3000) ∈ (elapse (handleFrameError s) d).overlays) ∧
    (3000 ≤ d → (s.now + 3000) ∉ (elapse (handleFrameError s) d).overlays) := by
  refine ⟨rfl, rfl, ?_, ?_⟩
  · intro hd
    simp [elapse, handleFrameError, List.mem_filter]
    omega
  · intro hd
    simp [elapse, handleFrameError, List.mem_filter]
    omega

/-- C9 witness: on the demo page the overlay born of an error is present
2999 ms later and gone at 3000 ms. -/
theorem frame_error_overlay_lifecycle_witness :
    (demoPage.now + 3000) ∈ (elapse (handleFrameError demoPage) 2999).overlays ∧
    (demoPage.now + 3000) ∉ (elapse (handleFrameError demoPage) 3000).overlays :=
  ⟨(frame_error_overlay_lifecycle demoPage 2999).2.2.1 (by decide),
   (frame_error_overlay_lifecycle demoPage 3000).2.2.2 (by decide)⟩

/- ===================================================================
   Part 7: claim C1 (the active designation invariant)
   =================================================================== -/

theorem lt_length_of_getElem?_eq_some {α : Type} {l : List α} {i : Nat} {a : α}
    (h : l[i]? = some a) : i < l.length := by
  by_contra hlt
  rw [List.getElem?_eq_none (by omega)] at h
  exact Option.noConfusion h

theorem countActive_clearActive (bs : List NavButton) :
    (clearActive bs).countP (fun b => b.active) = 0 := by
  simp [clearActive, List.countP_eq_zero]

theorem countP_markActive_of_all_inactive (i : Nat) (bs : List NavButton)
    (h : ∀ b ∈ bs, b.active = false) :
    (markActive i bs).countP (fun b => b.active) = if i < bs.length then 1 else 0 := by
  induction bs generalizing i with
  | nil => cases i <;> simp [markActive]
  | cons b bs ih =>
    have hb : b.active = false := h b (by simp)
    have hbs : ∀ x ∈ bs, x.active = false := fun x hx => h x (by simp [hx])
    cases i with
    | zero =>
      simp [markActive, List.countP_cons, List.countP_eq_zero]
      exact hbs
    | succ i => simp [markActive, List.countP_cons, hb, ih i hbs, Nat.succ_lt_succ_iff]

theorem countActive_updateActiveButton (s : NavState) (i : Nat) :
    countActive (updateActiveButton s i) = if i < s.buttons.length then 1 else 0 := by
  unfold countActive updateActiveButton
  rw [countP_markActive_of_all_inactive _ _ (by simp [clearActive])]
  simp [clearActive]

/-- A click that the guard stops leaves the state untouched. -/
theorem handleNavClick_of_not_effective (s : NavState) (i : Nat)
    (h : effectiveClick s i = false) : handleNavClick s i = s := by
  cases hb : s.buttons[i]? with
  | none => simp [handleNavClick, hb]
  | some b =>
    cases hu : b.url with
    | none => simp [handleNavClick, hb, hu]
    | some u =>
      by_cases h1 : u = ""
      · simp [handleNavClick, hb, hu, h1]
      · by_cases h2 : u = s.currentUrl
        · simp [handleNavClick, hb, hu, h1, h2]
        · simp [effectiveClick, hb, hu, h1, h2] at h

/-- An effective click leaves exactly one button active. -/
theorem countActive_of_effective (s : NavState) (i : Nat)
    (h : effectiveClick s i = true) : countActive (handleNavClick s i) = 1 := by
  cases hb : s.buttons[i]? with
  | none => simp [effectiveClick, hb] at h
  | some b =>
    cases hu : b.url with
    | none => simp [effectiveClick, hb, hu] at h
    | some u =>
      simp only [effectiveClick, hb, hu, Bool.and_eq_true, Bool.not_eq_true', beq_eq_false_iff_ne] at h
      have hlt : i < s.buttons.length := lt_length_of_getElem?_eq_some hb
      have hload : handleNavClick s i = loadContent (updateActiveButton s i) u i := by
        simp [handleNavClick, hb, hu, h.1, h.2]
      rw [hload]
      have : countActive (loadContent (updateActiveButton s i) u i) =
          countActive (updateActiveButton s i) := rfl
      rw [this, countActive_updateActiveButton, if_pos hlt]

theorem countActive_handleNavClick_le (s : NavState) (i : Nat) (h : countActive s ≤ 1) :
    countActive (handleNavClick s i) ≤ 1 := by
  by_cases heff : effectiveClick s i = true
  · rw [countActive_of_effective s i heff]
  · rw [handleNavClick_of_not_effective s i (by simpa using heff)]
    exact h

theorem countActive_handleNavClick_one (s : NavState) (i : Nat) (h : countActive s = 1) :
    countActive (handleNavClick s i) = 1 := by
  by_cases heff : effectiveClick s i = true
  · exact countActive_of_effective s i heff
  · rw [handleNavClick_of_not_effective s i (by simpa using heff)]
    exact h

theorem countActive_handleKeydown_le (s : NavState) (a : Bool) (k : Char)
    (h : countActive s ≤ 1) : countActive (handleKeydown s a k) ≤ 1 := by
  unfold handleKeydown
  split
  · split
    · exact countActive_handleNavClick_le s _ h
    · exact h
  · exact h

theorem countActive_handleKeydown_one (s : NavState) (a : Bool) (k : Char)
    (h : countActive s = 1) : countActive (handleKeydown s a k) = 1 := by
  unfold handleKeydown
  split
  · split
    · exact countActive_handleNavClick_one s _ h
    · exact h
  · exact h

theorem countActive_step_le (s : NavState) (e : NavEvent) (h : countActive s ≤ 1) :
    countActive (step s e) ≤ 1 := by
  cases e with
  | click i => exact countActive_handleNavClick_le s i h
  | keydown a k => exact countActive_handleKeydown_le s a k h
  | frameLoad => exact h
  | frameError => exact h
  | elapse d => exact h

theorem countActive_step_one (s : NavState) (e : NavEvent) (h : countActive s = 1) :
    countActive (step s e) = 1 := by
  cases e with
  | click i => exact countActive_handleNavClick_one s i h
  | keydown a k => exact countActive_handleKeydown_one s a k h
  | frameLoad => exact h
  | frameError => exact h
  | elapse d => exact h

theorem countActive_activates (s : NavState) (e : NavEvent) (ha : activates s e = true) :
    countActive (step s e) = 1 := by
  cases e with
  | click i => exact countActive_of_effective s i (by simpa [activates] using ha)
  | keydown a k =>
    simp only [activates, Bool.and_eq_true, decide_eq_true_eq] at ha
    have heff := ha.2
    have hlen := ha.1.2
    have hcond := ha.1.1
    show countActive (handleKeydown s a k) = 1
    unfold handleKeydown
    rw [if_pos (by simp [hcond.1, hcond.2]), if_pos hlen]
    exact countActive_of_effective s _ heff
  | frameLoad => simp [activates] at ha
  | frameError => simp [activates] at ha
  | elapse d => simp [activates] at ha

theorem countActive_run_le (s : NavState) (es : List NavEvent) (h : countActive s ≤ 1) :
    countActive (run s es) ≤ 1 := by
  induction es generalizing s with
  | nil => exact h
  | cons e es ih => exact ih (step s e) (countActive_step_le s e h)

theorem countActive_run_one (s : NavState) (es : List NavEvent) (h : countActive s = 1) :
    countActive (run s es) = 1 := by
  induction es generalizing s with
  | nil => exact h
  | cons e es ih => exact ih (step s e) (countActive_step_one s e h)

theorem countActive_runStates_le (s : NavState) (es : List NavEvent) (h : countActive s ≤ 1) :
    ∀ t ∈ runStates s es, countActive t ≤ 1 := by
  induction es generalizing s with
  | nil => intro t ht; simp [runStates] at ht
  | cons e es ih =>
    intro t ht
    simp only [runStates, List.mem_cons] at ht
    rcases ht with h1 | h1
    · subst h1; exact countActive_step_le s e h
    · exact ih (step s e) (countActive_step_le s e h) t h1

theorem countActive_someActivation (s : NavState) (es : List NavEvent)
    (h : countActive s ≤ 1) (ha : someActivation s es = true) :
    countActive (run s es) = 1 := by
  induction es generalizing s with
  | nil => simp [someActivation] at ha
  | cons e es ih =>
    simp only [someActivation, Bool.or_eq_true] at ha
    by_cases h2 : someActivation (step s e) es = true
    · exact ih (step s e) (countActive_step_le s e h) h2
    · rcases ha with ha | ha
      · exact countActive_run_one (step s e) es (countActive_activates s e ha)
      · exact absurd ha h2

/-- Every state observed while a click is handled has at most one active
button: the clearing loop only removes the designation, and marking gives
it to a single button. -/
theorem countActive_clickTrace (s : NavState) (i : Nat) :
    ∀ t ∈ clickTrace s i, countActive t ≤ 1 := by
  intro t ht
  cases hb : s.buttons[i]? with
  | none => simp [clickTrace, hb] at ht
  | some b =>
    cases hu : b.url with
    | none => simp [clickTrace, hb, hu] at ht
    | some u =>
      by_cases h1 : u = ""
      · simp [clickTrace, hb, hu, h1] at ht
      · by_cases h2 : u = s.currentUrl
        · simp [clickTrace, hb, hu, h1, h2] at ht
        · have hm : countActive (updateActiveButton s i) ≤ 1 := by
            rw [countActive_updateActiveButton]
            split <;> omega
          simp [clickTrace, hb, hu, h1, h2, loadContentTrace] at ht
          rcases ht with h3 | h3 | h3 | h3 | h3 | h3 <;> subst h3
          · show (clearActive s.buttons).countP (fun b => b.active) ≤ 1
            rw [countActive_clearActive]; omega
          · exact hm
          · exact hm
          · exact hm
          · exact hm
          · exact hm

/-- C1 counterexample: on a page whose only button has no data-url
attribute and where, as at startup, no button is active, one pointer
activation occurs and yet zero buttons carry the active designation
afterwards, refuting: exactly one button is active after any sequence
containing at least one activation. -/
theorem noop_click_leaves_zero_active :
    ([NavEvent.click 0] : List NavEvent) ≠ [] ∧
    countActive (run (initialState [{ url := none, active := false, ariaCurrent := "false" }])
      [NavEvent.click 0]) = 0 := by
  constructor
  · simp
  · rfl

/-- C1 (corrected): from any state with at most one active button, every
state reached by any sequence of clicks, keydowns, frame signals and
timer events, including every observable point inside a click handler,
has at most one active button; and once the sequence contains at least
one effective activation (a button whose url is present, non empty and
different from the then current url), exactly one button is active at the
end.  (A sequence of no-op activations alone can leave zero active, see
the counterexample.) -/
theorem active_button_uniqueness (s : NavState) (es : List NavEvent) (i : Nat)
    (h : countActive s ≤ 1) :
    (∀ t ∈ runStates s es, countActive t ≤ 1) ∧
    (someActivation s es = true → countActive (run s es) = 1) ∧
    (∀ t ∈ clickTrace s i, countActive t ≤ 1) :=
  ⟨countActive_runStates_le s es h,
   fun ha => countActive_someActivation s es h ha,
   countActive_clickTrace s i⟩

/-- C1 witness: on the demo page, one effective click on button 0 leaves
exactly one button active. -/
theorem active_button_uniqueness_witness :
    countActive demoPage ≤ 1 ∧ someActivation demoPage [NavEvent.click 0] = true ∧
    countActive (run demoPage [NavEvent.click 0]) = 1 :=
  ⟨by decide, by decide,
   (active_button_uniqueness demoPage [NavEvent.click 0] 0 (by decide)).2.1 (by decide)⟩

/- ===================================================================
   Part 8: claim C8 (element absence)
   =================================================================== -/

@[simp] theorem isOk_ok {e a : Type} (x : a) : (Except.ok x : Except e a).isOk = true := rfl

@[simp] theorem isOk_error {e a : Type} (x : e) : (Except.error x : Except e a).isOk = false := rfl

/-- With every element present the fallible handlers agree with the total
model used above. -/
theorem loadContentE_fullPage (s : NavState) (u : String) (i : Nat) :
    loadContentE fullPage s u i = Except.ok (loadContent s u i) := rfl

theorem handleFrameLoadE_fullPage (s : NavState) :
    handleFrameLoadE fullPage s = Except.ok (handleFrameLoad s) := rfl

theorem handleFrameErrorE_fullPage (s : NavState) :
    handleFrameErrorE fullPage s = Except.ok (handleFrameError s) := rfl

theorem handleNavClickE_fullPage (s : NavState) (i : Nat) :
    handleNavClickE fullPage s i = Except.ok (handleNavClick s i) := by
  cases hb : s.buttons[i]? with
  | none => simp [handleNavClickE, handleNavClick, hb]
  | some b =>
    cases hu : b.url with
    | none => simp [handleNavClickE, handleNavClick, hb, hu]
    | some u =>
      by_cases h1 : u = ""
      · simp [handleNavClickE, handleNavClick, hb, hu, h1]
      · by_cases h2 : u = s.currentUrl
        · simp [handleNavClickE, handleNavClick, hb, hu, h1, h2]
        · simp [handleNavClickE, handleNavClick, hb, hu, h1, h2, loadContentE, loadContent,
            fullPage]

/-- A page from which only the content frame element is missing. -/
def missingFrameConfig : PageConfig :=
  { hasContentFrame := false, hasFrameContainer := true, hasWelcomeScreen := true,
    hasWelcomeMessage := true, hasBottomNav := true }

/-- C8 counterexample: with the content frame element absent from the
page, init does not degrade to a no-op: line 25 dereferences the missing
element and throws a TypeError. -/
theorem missing_frame_makes_init_throw :
    initE missingFrameConfig = Except.error "TypeError: contentFrame is null" := rfl

/-- C8 (corrected): absence of the welcome screen, welcome message or
bottom navigation elements degrades every operation to a no-op; but the
content frame and frame container are required: init and the error
handler setup throw when the frame element is missing, and content
loading, load completion and error handling throw when the frame
container is missing. -/
theorem optional_elements_degrade_required_elements_throw (cfg : PageConfig) (s : NavState)
    (t : DomNode) (u : String) (i : Nat) :
    (prepareWelcomeAnimationE cfg t).isOk = true ∧
    (cfg.hasContentFrame = true →
        (initE cfg).isOk = true ∧ (setupErrorHandlingE cfg).isOk = true) ∧
    (cfg.hasContentFrame = true → cfg.hasFrameContainer = true →
        (loadContentE cfg s u i).isOk = true ∧ (handleNavClickE cfg s i).isOk = true) ∧
    (cfg.hasFrameContainer = true →
        (handleFrameLoadE cfg s).isOk = true ∧ (handleFrameErrorE cfg s).isOk = true) ∧
    (cfg.hasContentFrame = false →
        (initE cfg).isOk = false ∧ (setupErrorHandlingE cfg).isOk = false) ∧
    (cfg.hasFrameContainer = false →
        (handleFrameLoadE cfg s).isOk = false ∧ (handleFrameErrorE cfg s).isOk = false ∧
        (loadContentE cfg s u i).isOk = false) := by
  refine ⟨rfl, ?_, ?_, ?_, ?_, ?_⟩
  · intro hf
    exact ⟨by simp [initE, hf], by simp [setupErrorHandlingE, hf]⟩
  · intro hf hc
    constructor
    · simp [loadContentE, hf, hc]
    · cases hb : s.buttons[i]? with
      | none => simp [handleNavClickE, hb]
      | some b =>
        cases hu : b.url with
        | none => simp [handleNavClickE, hb, hu]
        | some u2 =>
          by_cases h1 : u2 = ""
          · simp [handleNavClickE, hb, hu, h1]
          · by_cases h2 : u2 = s.currentUrl
            · simp [handleNavClickE, hb, hu, h1, h2]
            · simp [handleNavClickE, hb, hu, h1, h2, loadContentE, hf, hc]
  · intro hc
    exact ⟨by simp [handleFrameLoadE, hc], by simp [handleFrameErrorE, hc]⟩
  · intro hf
    exact ⟨by simp [initE, hf], by simp [setupErrorHandlingE, hf]⟩
  · intro hc
    exact ⟨by simp [handleFrameLoadE, hc], by simp [handleFrameErrorE, hc],
      by simp [loadContentE, hc]⟩

/-- A page that has the two required elements but none of the three
optional ones. -/
def bareConfig : PageConfig :=
  { hasContentFrame := true, hasFrameContainer := true, hasWelcomeScreen := false,
    hasWelcomeMessage := false, hasBottomNav := false }

/-- C8 witness: with the three optional elements all absent, startup and a
click both succeed. -/
theorem optional_elements_degrade_witness :
    (prepareWelcomeAnimationE bareConfig (DomNode.text "Hi")).isOk = true ∧
    (initE bareConfig).isOk = true ∧
    (handleNavClickE bareConfig demoPage 0).isOk = true :=
  ⟨(optional_elements_degrade_required_elements_throw bareConfig demoPage (DomNode.text "Hi")
      "/home.html" 0).1,
   ((optional_elements_degrade_required_elements_throw bareConfig demoPage (DomNode.text "Hi")
      "/home.html" 0).2.1 rfl).1,
   ((optional_elements_degrade_required_elements_throw bareConfig demoPage (DomNode.text "Hi")
      "/home.html" 0).2.2.1 rfl rfl).2⟩

/- ===================================================================
   Part 9: lemmas about the text sequencer
   =================================================================== -/

theorem processList_nil_eq (k : Nat) : processList k [] = ([], k) := rfl

theorem processList_cons_eq (k : Nat) (n : DomNode) (ns : List DomNode) :
    processList k (n :: ns) =
      ((processNode k n).1 ++ (processList (processNode k n).2 ns).1,
       (processList (processNode k n).2 ns).2) := rfl

theorem processList_append (k : Nat) (as bs : List DomNode) :
    processList k (as ++ bs) =
      ((processList k as).1 ++ (processList (processList k as).2 bs).1,
       (processList (processList k as).2 bs).2) := by
  induction as generalizing k with
  | nil => simp [processList_nil_eq]
  | cons a as ih =>
    simp only [List.cons_append, processList_cons_eq, ih]
    simp [List.append_assoc]

theorem unitsOfList_append (as bs : List DomNode) :
    unitsOfList (as ++ bs) = unitsOfList as ++ unitsOfList bs := by
  induction as with
  | nil => rfl
  | cons a as ih => simp [unitsOfList, ih]

theorem unitsFrom_append (k : Nat) (xs ys : List Char) :
    unitsFrom k (xs ++ ys) = unitsFrom k xs ++ unitsFrom (k + xs.length) ys := by
  induction xs generalizing k with
  | nil => simp [unitsFrom]
  | cons x xs ih =>
    show (30 * k, x) :: unitsFrom (k + 1) (xs ++ ys) =
      unitsFrom k (x :: xs) ++ unitsFrom (k + (x :: xs).length) ys
    rw [ih (k + 1), show (x :: xs).length = xs.length + 1 from rfl,
      show k + 1 + xs.length = k + (xs.length + 1) by omega]
    rfl

theorem snd_mem_of_mem_unitsFrom (p : Nat × Char) :
    ∀ (k : Nat) (xs : List Char), p ∈ unitsFrom k xs → p.2 ∈ xs := by
  intro k xs
  induction xs generalizing k with
  | nil => simp [unitsFrom]
  | cons x xs ih =>
    intro hp
    simp only [unitsFrom, List.mem_cons] at hp
    rcases hp with hp | hp
    · subst hp; simp
    · simp [ih (k + 1) hp]

/-- Closed form of the character loop: the units it produces are exactly
the non whitespace characters in order, each delayed 30 ms more than the
one before, the counter advances by their number, and the characters of
the fragment are the input characters with LF, CR and TAB removed (spaces
surviving verbatim as unanimated text). -/
theorem processChars_spec (k : Nat) (cs : List Char) :
    unitsOfList (processChars k cs).1 = unitsFrom k (cs.filter (fun c => !loopWhitespace c)) ∧
    (processChars k cs).2 = k + (cs.filter (fun c => !loopWhitespace c)).length ∧
    charsOfList (processChars k cs).1 =
      cs.filter (fun c => !(c == '\n' || c == '\r' || c == '\t')) := by
  induction cs generalizing k with
  | nil => exact ⟨rfl, rfl, rfl⟩
  | cons c cs ih =>
    have hrec1 := ih k
    have hrec2 := ih (k + 1)
    by_cases h1 : (c == ' ') = true
    · have hc : c = ' ' := by simpa using h1
      subst hc
      refine ⟨?_, ?_, ?_⟩
      · show unitsOfList (DomNode.text " " :: (processChars k cs).1) = _
        rw [show unitsOfList (DomNode.text " " :: (processChars k cs).1) =
            unitsOfList (processChars k cs).1 from rfl, hrec1.1]
        rfl
      · show (processChars k cs).2 = _
        rw [hrec1.2.1]
        rfl
      · show charsOfList (DomNode.text " " :: (processChars k cs).1) = _
        rw [show charsOfList (DomNode.text " " :: (processChars k cs).1) =
            ' ' :: charsOfList (processChars k cs).1 from rfl, hrec1.2.2]
        rfl
    · by_cases h2 : (c == '\n' || c == '\r' || c == '\t') = true
      · have heq : processChars k (c :: cs) = processChars k cs := by
          show (if (c == ' ') = true then
              (DomNode.text " " :: (processChars k cs).1, (processChars k cs).2)
            else if (c == '\n' || c == '\r' || c == '\t') = true then processChars k cs
            else (DomNode.unit (30 * k) c :: (processChars (k + 1) cs).1,
              (processChars (k + 1) cs).2)) = processChars k cs
          rw [if_neg h1, if_pos h2]
        have hc3 : c = '\n' ∨ c = '\r' ∨ c = '\t' := by
          have := h2
          simp at this
          tauto
        rw [heq]
        rcases hc3 with hc | hc | hc <;> subst hc <;>
          exact ⟨hrec1.1, hrec1.2.1, hrec1.2.2⟩
      · have hl : loopWhitespace c = false := by
          simp only [loopWhitespace, h1, Bool.false_or]
          simpa using h2
        have heq : processChars k (c :: cs) =
            (DomNode.unit (30 * k) c :: (processChars (k + 1) cs).1,
             (processChars (k + 1) cs).2) := by
          show (if (c == ' ') = true then
              (DomNode.text " " :: (processChars k cs).1, (processChars k cs).2)
            else if (c == '\n' || c == '\r' || c == '\t') = true then processChars k cs
            else (DomNode.unit (30 * k) c :: (processChars (k + 1) cs).1,
              (processChars (k + 1) cs).2)) = _
          rw [if_neg h1, if_neg h2]
        have hfl : List.filter (fun x => !loopWhitespace x) (c :: cs) =
            c :: List.filter (fun x => !loopWhitespace x) cs := by
          rw [List.filter_cons, if_pos (show (!loopWhitespace c) = true by simp [hl])]
        have hq : (!(c == '\n' || c == '\r' || c == '\t')) = true := by simpa using h2
        have hfq : List.filter (fun x => !(x == '\n' || x == '\r' || x == '\t')) (c :: cs) =
            c :: List.filter (fun x => !(x == '\n' || x == '\r' || x == '\t')) cs := by
          rw [List.filter_cons, if_pos hq]
        rw [heq]
        refine ⟨?_, ?_, ?_⟩
        · show (30 * k, c) :: unitsOfList (processChars (k + 1) cs).1 = _
          rw [hrec2.1, hfl]
          rfl
        · show (processChars (k + 1) cs).2 = _
          rw [hrec2.2.1, hfl, List.length_cons]
          omega
        · show c :: charsOfList (processChars (k + 1) cs).1 = _
          rw [hrec2.2.2, hfq]

theorem processNode_text_eq (k : Nat) (s : String) :
    processNode k (DomNode.text s) =
      if s.toList.all jsWhitespace then ([DomNode.text s], k)
      else processChars k s.toList := rfl

theorem processNode_unit_eq (k d : Nat) (c : Char) :
    processNode k (DomNode.unit d c) = ([DomNode.unit d c], k) := rfl

theorem processNode_elem_eq (k : Nat) (tag : String) (sty : Bool) (cs : List DomNode) :
    processNode k (DomNode.elem tag sty cs) =
      if lowerEq tag "br" || sty then ([DomNode.elem tag sty cs], k)
      else ([DomNode.elem tag sty (processList k cs).1], (processList k cs).2) := rfl

theorem unitsOfList_singleton (t : DomNode) : unitsOfList [t] = unitsOfNode t := by
  show unitsOfNode t ++ unitsOfList [] = unitsOfNode t
  rw [show unitsOfList [] = [] from rfl, List.append_nil]

theorem animCharsNode_text (s : String) :
    animCharsNode (DomNode.text s) = s.toList.filter (fun c => !loopWhitespace c) := rfl

theorem animCharsNode_elem (tag : String) (sty : Bool) (cs : List DomNode) :
    animCharsNode (DomNode.elem tag sty cs) =
      if lowerEq tag "br" then [] else animCharsList cs := rfl

theorem animCharsList_cons (n : DomNode) (ns : List DomNode) :
    animCharsList (n :: ns) = animCharsNode n ++ animCharsList ns := rfl

mutual

/-- A pristine tree holds no animated unit. -/
theorem unitsOfNode_pristine (t : DomNode) (h : pristineNode t = true) : unitsOfNode t = [] := by
  cases t with
  | text s => rfl
  | unit d c => simp [pristineNode] at h
  | elem tag sty cs =>
    show unitsOfList cs = []
    simp only [pristineNode, Bool.and_eq_true] at h
    exact unitsOfList_pristine cs h.2

/-- A pristine forest holds no animated unit. -/
theorem unitsOfList_pristine (ts : List DomNode) (h : pristineList ts = true) :
    unitsOfList ts = [] := by
  cases ts with
  | nil => rfl
  | cons n ns =>
    simp only [pristineList, Bool.and_eq_true] at h
    show unitsOfNode n ++ unitsOfList ns = []
    rw [unitsOfNode_pristine n h.1, unitsOfList_pristine ns h.2]
    rfl

end

mutual

/-- On a pristine node the traversal emits exactly the content characters
as units, delays counted on from k, and advances the counter by their
number. -/
theorem processNode_units (k : Nat) (t : DomNode) (h : pristineNode t = true) :
    unitsOfList (processNode k t).1 = unitsFrom k (animCharsNode t) ∧
    (processNode k t).2 = k + (animCharsNode t).length := by
  cases t with
  | text s =>
    by_cases hws : (s.toList.all jsWhitespace) = true
    · have hfil : s.toList.filter (fun c => !loopWhitespace c) = [] := by
        rw [List.filter_eq_nil_iff]
        intro a ha
        have h1 := List.all_eq_true.mp hws a ha
        have h2 := List.all_eq_true.mp h a ha
        simp only [h1, Bool.not_true, Bool.false_or] at h2
        simp [h2]
      rw [processNode_text_eq, if_pos hws, animCharsNode_text, hfil]
      constructor
      · rw [unitsOfList_singleton]
        rfl
      · rfl
    · rw [processNode_text_eq, if_neg hws, animCharsNode_text]
      exact ⟨(processChars_spec k s.toList).1, (processChars_spec k s.toList).2.1⟩
  | unit d c => simp [pristineNode] at h
  | elem tag sty cs =>
    simp only [pristineNode, Bool.and_eq_true, Bool.not_eq_true'] at h
    obtain ⟨hsty, hcs⟩ := h
    subst hsty
    by_cases hbr : (lowerEq tag "br") = true
    · rw [processNode_elem_eq, if_pos (by simp [hbr]), animCharsNode_elem, if_pos hbr]
      constructor
      · rw [unitsOfList_singleton, show unitsOfNode (DomNode.elem tag false cs) =
          unitsOfList cs from rfl, unitsOfList_pristine cs hcs]
        rfl
      · rfl
    · have hrec := processList_units k cs hcs
      rw [processNode_elem_eq, if_neg (by simp [hbr]), animCharsNode_elem, if_neg hbr]
      constructor
      · rw [unitsOfList_singleton, show unitsOfNode (DomNode.elem tag false
          (processList k cs).1) = unitsOfList (processList k cs).1 from rfl]
        exact hrec.1
      · exact hrec.2

/-- On a pristine forest the traversal emits exactly the content
characters as units, delays counted on from k. -/
theorem processList_units (k : Nat) (ts : List DomNode) (h : pristineList ts = true) :
    unitsOfList (processList k ts).1 = unitsFrom k (animCharsList ts) ∧
    (processList k ts).2 = k + (animCharsList ts).length := by
  cases ts with
  | nil => exact ⟨rfl, rfl⟩
  | cons n ns =>
    simp only [pristineList, Bool.and_eq_true] at h
    have h1 := processNode_units k n h.1
    have h2 := processList_units (processNode k n).2 ns h.2
    rw [processList_cons_eq]
    constructor
    · show unitsOfList ((processNode k n).1 ++ (processList (processNode k n).2 ns).1) = _
      rw [unitsOfList_append, h1.1, h2.1, h1.2, animCharsList_cons, unitsFrom_append]
    · show (processList (processNode k n).2 ns).2 = _
      rw [h2.2, h1.2, animCharsList_cons, List.length_append]
      omega

end

theorem processChars_stable (k k2 : Nat) (cs : List Char) :
    processList k2 (processChars k cs).1 = ((processChars k cs).1, k2) := by
  induction cs generalizing k with
  | nil => rfl
  | cons c cs ih =>
    by_cases h1 : (c == ' ') = true
    · have hc : c = ' ' := by simpa using h1
      subst hc
      show processList k2 (DomNode.text " " :: (processChars k cs).1) = _
      rw [processList_cons_eq]
      show ([DomNode.text " "] ++ (processList k2 (processChars k cs).1).1,
        (processList k2 (processChars k cs).1).2) = _
      rw [ih k]
      rfl
    · by_cases h2 : (c == '\n' || c == '\r' || c == '\t') = true
      · have heq : processChars k (c :: cs) = processChars k cs := by
          show (if (c == ' ') = true then
              (DomNode.text " " :: (processChars k cs).1, (processChars k cs).2)
            else if (c == '\n' || c == '\r' || c == '\t') = true then processChars k cs
            else (DomNode.unit (30 * k) c :: (processChars (k + 1) cs).1,
              (processChars (k + 1) cs).2)) = processChars k cs
          rw [if_neg h1, if_pos h2]
        rw [heq]
        exact ih k
      · have heq : processChars k (c :: cs) =
            (DomNode.unit (30 * k) c :: (processChars (k + 1) cs).1,
             (processChars (k + 1) cs).2) := by
          show (if (c == ' ') = true then
              (DomNode.text " " :: (processChars k cs).1, (processChars k cs).2)
            else if (c == '\n' || c == '\r' || c == '\t') = true then processChars k cs
            else (DomNode.unit (30 * k) c :: (processChars (k + 1) cs).1,
              (processChars (k + 1) cs).2)) = _
          rw [if_neg h1, if_neg h2]
        rw [heq]
        show processList k2 (DomNode.unit (30 * k) c :: (processChars (k + 1) cs).1) = _
        rw [processList_cons_eq]
        show ([DomNode.unit (30 * k) c] ++ (processList k2 (processChars (k + 1) cs).1).1,
          (processList k2 (processChars (k + 1) cs).1).2) = _
        rw [ih (k + 1)]
        rfl

mutual

/-- Reprocessing any output of the traversal, from any counter value,
returns it unchanged with the counter untouched. -/
theorem processNode_stable (k k2 : Nat) (t : DomNode) :
    processList k2 (processNode k t).1 = ((processNode k t).1, k2) := by
  cases t with
  | text s =>
    by_cases hws : (s.toList.all jsWhitespace) = true
    · rw [processNode_text_eq, if_pos hws, processList_cons_eq, processNode_text_eq, if_pos hws]
      rfl
    · rw [processNode_text_eq, if_neg hws]
      exact processChars_stable k k2 s.toList
  | unit d c =>
    rw [processNode_unit_eq, processList_cons_eq, processNode_unit_eq]
    rfl
  | elem tag sty cs =>
    by_cases hc : (lowerEq tag "br" || sty) = true
    · rw [processNode_elem_eq, if_pos hc, processList_cons_eq, processNode_elem_eq, if_pos hc]
      rfl
    · rw [processNode_elem_eq, if_neg hc, processList_cons_eq, processNode_elem_eq, if_neg hc]
      show ([DomNode.elem tag sty (processList k2 (processList k cs).1).1] ++
        (processList (processList k2 (processList k cs).1).2 []).1,
        (processList (processList k2 (processList k cs).1).2 []).2) = _
      rw [processList_stable k k2 cs]
      rfl

/-- Reprocessing any forest output of the traversal returns it unchanged
with the counter untouched. -/
theorem processList_stable (k k2 : Nat) (ts : List DomNode) :
    processList k2 (processList k ts).1 = ((processList k ts).1, k2) := by
  cases ts with
  | nil => rfl
  | cons n ns =>
    rw [processList_cons_eq]
    show processList k2 ((processNode k n).1 ++ (processList (processNode k n).2 ns).1) = _
    rw [processList_append, processNode_stable k k2 n]
    show ((processNode k n).1 ++
        (processList k2 (processList (processNode k n).2 ns).1).1,
      (processList k2 (processList (processNode k n).2 ns).1).2) = _
    rw [processList_stable (processNode k n).2 k2 ns]

end

/- ===================================================================
   Part 10: claims C5, C6, C7
   =================================================================== -/

/-- The welcome message of the spec scenario: Hi there. -/
def welcomeTree : DomNode := DomNode.elem "DIV" false [DomNode.text "Hi there"]

/-- C5 (confirmed): for a pristine welcome message (no previously produced
units, no styled elements, only ordinary whitespace in its text) the
sequencer produces exactly one animated unit per non whitespace content
character, in original message order: the unit list is unitsFrom 0 of
those characters, so the j-th unit (1 based) carries reveal delay
(j-1) * 30 ms; whitespace contributes no unit, and the final index equals
the unit count, whitespace never advancing it. -/
theorem sequencer_units_count_order_delays (t : DomNode) (h : pristineNode t = true) :
    unitsOfList (prepareWelcomeAnimation t).1 = unitsFrom 0 (animCharsNode t) ∧
    (prepareWelcomeAnimation t).2 = (animCharsNode t).length := by
  have h2 := processNode_units 0 t h
  exact ⟨h2.1, by simpa using h2.2⟩

/-- C5 witness: the spec scenario Hi there: 7 units, delays 0 to 180 ms in
steps of 30, final index 7. -/
theorem sequencer_units_count_order_delays_witness :
    pristineNode welcomeTree = true ∧
    unitsOfList (prepareWelcomeAnimation welcomeTree).1 = unitsFrom 0 (animCharsNode welcomeTree) ∧
    unitsFrom 0 (animCharsNode welcomeTree) =
      [(0, 'H'), (30, 'i'), (60, 't'), (90, 'h'), (120, 'e'), (150, 'r'), (180, 'e')] ∧
    (prepareWelcomeAnimation welcomeTree).2 = 7 :=
  ⟨rfl, (sequencer_units_count_order_delays welcomeTree rfl).1, rfl,
   (sequencer_units_count_order_delays welcomeTree rfl).2⟩

/-- C6 counterexample: a text node holding only a newline trims to
nothing, so line 44 returns it unchanged: its newline character is still
present in the output, not dropped. -/
theorem whitespace_only_text_keeps_newline :
    processNode 0 (DomNode.text "\n") = ([DomNode.text "\n"], 0) ∧
    charsOfList (processNode 0 (DomNode.text "\n")).1 = ['\n'] :=
  ⟨rfl, rfl⟩

/-- C6 (corrected): for every text node holding at least one character
that trim does not remove, the split preserves every space verbatim as
unanimated text (no unit carries a space) and drops every LF, CR and TAB,
keeping all remaining characters in original order, the index advancing
only for the animated ones; but a text node whose content trims to
nothing is passed through unchanged, so ITS newline, carriage return and
tab characters are not dropped (see the counterexample). -/
theorem text_node_space_preserved_breaks_dropped (k : Nat) (s : String) :
    (s.toList.all jsWhitespace = true →
        processNode k (DomNode.text s) = ([DomNode.text s], k)) ∧
    (s.toList.all jsWhitespace = false →
        charsOfList (processNode k (DomNode.text s)).1 =
          s.toList.filter (fun c => !(c == '\n' || c == '\r' || c == '\t')) ∧
        (∀ p ∈ unitsOfList (processNode k (DomNode.text s)).1, p.2 ≠ ' ') ∧
        (processNode k (DomNode.text s)).2 =
          k + (s.toList.filter (fun c => !loopWhitespace c)).length) := by
  constructor
  · intro hws
    rw [processNode_text_eq, if_pos hws]
  · intro hws
    rw [processNode_text_eq, if_neg (by rw [hws]; exact Bool.false_ne_true)]
    have hspec := processChars_spec k s.toList
    refine ⟨hspec.2.2, ?_, hspec.2.1⟩
    intro p hp
    rw [hspec.1] at hp
    have h2 := snd_mem_of_mem_unitsFrom p k _ hp
    have h3 := List.of_mem_filter h2
    intro hsp
    rw [hsp] at h3
    simp [loopWhitespace] at h3

/-- C6 witness: the text node Hi there keeps its space and both letters
groups, drops nothing else, and the output characters match. -/
theorem text_node_space_preserved_breaks_dropped_witness :
    ("Hi there".toList.all jsWhitespace = false) ∧
    charsOfList (processNode 0 (DomNode.text "Hi there")).1 =
      "Hi there".toList.filter (fun c => !(c == '\n' || c == '\r' || c == '\t')) :=
  ⟨rfl, ((text_node_space_preserved_breaks_dropped 0 "Hi there").2 rfl).1⟩

/-- C7 (confirmed): the traversal skips exactly the line break elements
and the nodes carrying the per unit timing attribute (inline style), the
animated units it creates among them: skipped nodes pass through
unchanged; every other element is recursed into, its children replaced in
order; and running the traversal a second time on any of its outputs,
from any counter value, returns the output unchanged: no additional
animated unit is ever produced. -/
theorem traversal_skips_and_second_pass_stable (k k2 d : Nat) (t : DomNode) (tag : String)
    (sty : Bool) (cs : List DomNode) (c : Char) :
    ((lowerEq tag "br" || sty) = true →
        processNode k (DomNode.elem tag sty cs) = ([DomNode.elem tag sty cs], k)) ∧
    processNode k (DomNode.unit d c) = ([DomNode.unit d c], k) ∧
    ((lowerEq tag "br" || sty) = false →
        processNode k (DomNode.elem tag sty cs) =
          ([DomNode.elem tag sty (processList k cs).1], (processList k cs).2)) ∧
    processList k2 (processNode k t).1 = ((processNode k t).1, k2) := by
  refine ⟨?_, processNode_unit_eq k d c, ?_, processNode_stable k k2 t⟩
  · intro hc
    rw [processNode_elem_eq, if_pos hc]
  · intro hc
    rw [processNode_elem_eq, if_neg (by simp [hc])]

/-- C7 witness: an uppercase BR element passes through unchanged, and a
second pass over the processed Hi there message changes nothing. -/
theorem traversal_skips_and_second_pass_stable_witness :
    (lowerEq "BR" "br" || false) = true ∧
    processNode 3 (DomNode.elem "BR" false []) = ([DomNode.elem "BR" false []], 3) ∧
    processList 5 (processNode 0 welcomeTree).1 = ((processNode 0 welcomeTree).1, 5) :=
  ⟨rfl, (traversal_skips_and_second_pass_stable 3 5 0 welcomeTree "BR" false [] 'x').1 rfl,
   (traversal_skips_and_second_pass_stable 0 5 0 welcomeTree "BR" false [] 'x').2.2.2⟩
